import Mathlib

/-!
Verification of the synchronization/handoff primitives of the
chromeos_smart_card_connector repository:

* `EmscriptenModuleMessageChannel` (the ordered mailbox) and
  `EmscriptenModule` (the module loader), from
  `src/common/js/src/executable-module/emscripten-module.js`;
* `PcscLiteServerSocketsManager` (the blocking handoff queue), declared in
  `src/third_party/pcsc-lite/naclport/server/src/server_sockets_manager.h`.

The JS mailbox runs on a single cooperative execution context; reentrancy
(a delivery side-effect synchronously calling back into the channel) is
modelled by explicit action lists executed after each delivery.  The C++
queue's implementation file is not part of the sources, so its behaviour is
modelled from the header's documentation comments and the specification; the
blocking `WaitAndPop` is modelled by a trace semantics in which a blocked
consumer is represented by a `blocked` flag resolved by the next wake-up.
-/

namespace SmartCard

/-- Model of a JavaScript value as far as the channel code inspects it:
`goog.isObject` distinguishes objects from primitives. -/
inductive JsValue where
  | object (fields : List (String × Nat))
  | primitive (value : Nat)
deriving DecidableEq, Repr

/-- Model of `goog.isObject`. -/
def JsValue.isObject : JsValue → Bool
  | .object _ => true
  | .primitive _ => false

/-- The wire record produced by `TypedMessage.makeMessage`: a (type, data)
envelope. -/
structure Message where
  type : String
  data : JsValue
deriving DecidableEq, Repr

/-- Modelled from the spec: `GSC.TypedMessage` normalizes a service name and
payload into the (type, data) envelope format (`TypedMessage` is not among
the sources). -/
def makeMessage (serviceName : String) (payload : JsValue) : Message :=
  ⟨serviceName, payload⟩

/-- A subscriber registration: a service name and an opaque identifier for
the registered callback. -/
structure Subscriber where
  serviceName : String
  id : Nat
deriving DecidableEq, Repr

/-- Errors the channel code can raise: a failed `Logging.check` or
`goog.asserts` assertion, a JavaScript `TypeError` (method access on an
absent object), and the fatal `Logging.fail` diagnostic. -/
inductive JsError where
  | assertionFailure
  | typeError
  | fatalLoggingFailure
deriving DecidableEq, Repr

/-- State of an `EmscriptenModuleMessageChannel`.  `posted` is the
observable trace of messages delivered to the target via
`googleSmartCardModule_['postMessage']`. -/
structure ChannelState where
  pendingOutgoingMessages : List Message
  googleSmartCardModule : Option Nat
  disposed : Bool
  subscribers : List Subscriber
  posted : List Message
deriving DecidableEq, Repr

/-- The channel constructor: empty pending buffer, no module, not disposed,
no subscribers, nothing posted yet. -/
def initialChannel : ChannelState :=
  ⟨[], none, false, [], []⟩

/-- `EmscriptenModuleMessageChannel.prototype.sendNow_`: posts the message
on the Embind module object.  When the module reference is absent (deleted
by disposal), the property access throws a `TypeError`. -/
def sendNow_ (s : ChannelState) (message : Message) :
    Except JsError ChannelState :=
  match s.googleSmartCardModule with
  | none => .error .typeError
  | some _ => .ok { s with posted := s.posted ++ [message] }

/-- `EmscriptenModuleMessageChannel.prototype.send`: asserts the payload is
an object, builds the typed message, silently drops when disposed, buffers
when the module is absent or the pending buffer is non-empty, and otherwise
delivers immediately. -/
def send (s : ChannelState) (serviceName : String) (payload : JsValue) :
    Except JsError ChannelState :=
  if payload.isObject = false then .error .assertionFailure
  else
    let message := makeMessage serviceName payload
    if s.disposed = true then .ok s
    else if s.googleSmartCardModule = none ∨ s.pendingOutgoingMessages ≠ [] then
      .ok { s with pendingOutgoingMessages := s.pendingOutgoingMessages ++ [message] }
    else sendNow_ s message

/-- The first statement of the channel's `disposeInternal`:
`delete this.googleSmartCardModule_`. -/
def clearModuleRef (s : ChannelState) : ChannelState :=
  { s with googleSmartCardModule := none }

/-- Modelled from the spec: the base-class `disposeInternal`
(`goog.messaging.AbstractChannel`, not among the sources) releases all
subscriber registrations. -/
def baseDisposeInternal (s : ChannelState) : ChannelState :=
  { s with subscribers := [] }

/-- `EmscriptenModuleMessageChannel.prototype.disposeInternal`: deletes the
module reference, then invokes the base-class disposal. -/
def disposeInternal (s : ChannelState) : ChannelState :=
  baseDisposeInternal (clearModuleRef s)

/-- `goog.Disposable.prototype.dispose` (modelled from the spec, as the
Closure base class is not among the sources): a no-op when already
disposed; otherwise marks the object disposed and runs `disposeInternal`. -/
def dispose (s : ChannelState) : ChannelState :=
  if s.disposed = true then s
  else disposeInternal { s with disposed := true }

/-- Modelled from the spec: subscriber registration
(`goog.messaging.AbstractChannel.registerService`, not among the sources)
appends a registration for the given service name. -/
def registerService (s : ChannelState) (sub : Subscriber) : ChannelState :=
  { s with subscribers := s.subscribers ++ [sub] }

/-- A synchronous call back into the channel, as can be issued by a delivery
side-effect: another `send`, or a `dispose`. -/
inductive Action where
  | actSend (serviceName : String) (payload : JsValue)
  | actDispose
deriving DecidableEq, Repr

/-- Interpretation of one reentrant action on the channel. -/
def applyAction (s : ChannelState) : Action → Except JsError ChannelState
  | .actSend serviceName payload => send s serviceName payload
  | .actDispose => .ok (dispose s)

/-- Runs a list of reentrant actions; stops at the first thrown error,
keeping the side effects performed up to that point. -/
def runActions : ChannelState → List Action → ChannelState × Option JsError
  | s, [] => (s, none)
  | s, a :: rest =>
    match applyAction s a with
    | .error e => (s, some e)
    | .ok s1 => runActions s1 rest

/-- The envelopes built by the `send` actions of a list, in order. -/
def actionMessages : List Action → List Message
  | [] => []
  | .actSend serviceName payload :: rest =>
      makeMessage serviceName payload :: actionMessages rest
  | .actDispose :: rest => actionMessages rest

/-- Holds when every action is a `send` with an object payload (no disposal,
no assertion failure). -/
def sendActionsOnly : List Action → Bool
  | [] => true
  | .actSend _ payload :: rest => payload.isObject && sendActionsOnly rest
  | .actDispose :: _ => false

/-- Holds when every `send` action carries an object payload (disposals are
allowed). -/
def objectSendsOnly : List Action → Bool
  | [] => true
  | .actSend _ payload :: rest => payload.isObject && objectSendsOnly rest
  | .actDispose :: rest => objectSendsOnly rest

/-- The `send` actions corresponding to a list of (serviceName, payload)
calls. -/
def sendActions (calls : List (String × JsValue)) : List Action :=
  calls.map fun c => Action.actSend c.1 c.2

/-- The envelopes built from a list of (serviceName, payload) calls. -/
def envelopesOf (calls : List (String × JsValue)) : List Message :=
  calls.map fun c => makeMessage c.1 c.2

/-- Outcome of the drain loop of `onModuleCreated`: it either ran to
completion, ran out of fuel (models divergence when every delivery keeps
feeding the buffer), or was aborted by a thrown error. -/
inductive DrainOutcome where
  | finished
  | fuelExhausted
  | aborted (e : JsError)
deriving DecidableEq, Repr

/-- The `for (const message of this.pendingOutgoingMessages_)` loop of
`onModuleCreated`: an index-based walk that re-reads the (possibly grown)
buffer at every step and never removes elements.  `react i m` is the list
of synchronous calls the target's handling of the i-th delivery issues back
into the channel. -/
def drainLoop (react : Nat → Message → List Action) :
    Nat → ChannelState → Nat → ChannelState × DrainOutcome
  | 0, s, _ => (s, .fuelExhausted)
  | fuel + 1, s, i =>
    match s.pendingOutgoingMessages[i]? with
    | none => (s, .finished)
    | some message =>
      match sendNow_ s message with
      | .error e => (s, .aborted e)
      | .ok s1 =>
        match runActions s1 (react i message) with
        | (s2, some e) => (s2, .aborted e)
        | (s2, none) => drainLoop react fuel s2 (i + 1)

/-- `EmscriptenModuleMessageChannel.prototype.onModuleCreated`: stores the
module reference, drains the pending buffer, and — once the loop has
finished — resets the buffer to the empty array. -/
def onModuleCreated (react : Nat → Message → List Action) (fuel : Nat)
    (s : ChannelState) (target : Nat) : ChannelState × DrainOutcome :=
  let s0 := { s with googleSmartCardModule := some target }
  match drainLoop react fuel s0 0 with
  | (s1, .finished) => ({ s1 with pendingOutgoingMessages := [] }, .finished)
  | (s1, outcome) => (s1, outcome)

/-- A raw inbound value from the module: either a well-formed (type, data)
record or malformed junk. -/
inductive RawMessage where
  | wellFormed (message : Message)
  | malformed (junk : Nat)
deriving DecidableEq, Repr

/-- Modelled from the spec: `GSC.TypedMessage.parseTypedMessage` (not among
the sources) decodes a raw value into the envelope record and fails on
malformed input. -/
def parseTypedMessage : RawMessage → Option Message
  | .wellFormed message => some message
  | .malformed _ => none

/-- One delivery to a subscriber callback. -/
structure Delivery where
  subscriberId : Nat
  data : JsValue
deriving DecidableEq, Repr

/-- Modelled from the spec: `goog.messaging.AbstractChannel.deliver` (not
among the sources) routes by type to the subscribers registered for that
type, in registration order. -/
def deliver : List Subscriber → String → JsValue → List Delivery
  | [], _, _ => []
  | sub :: rest, t, d =>
    if sub.serviceName = t then ⟨sub.id, d⟩ :: deliver rest t d
    else deliver rest t d

/-- `EmscriptenModuleMessageChannel.prototype.onMessageFromModule`: parses
the raw message; a parse failure hits `GSC.Logging.fail` (fatal, modelled
from the spec as `Logging` is not among the sources); on success the typed
message is routed to the subscribers. -/
def onMessageFromModule (s : ChannelState) (raw : RawMessage) :
    Except JsError (List Delivery) :=
  match parseTypedMessage raw with
  | none => .error .fatalLoggingFailure
  | some typedMessage => .ok (deliver s.subscribers typedMessage.type typedMessage.data)

/-- State of an `EmscriptenModule` bridge: its message channel, the Embind
entry-point object, and the disposed flag. -/
structure ModuleState where
  messageChannel : ChannelState
  googleSmartCardModule : Option Nat
  disposed : Bool
deriving DecidableEq, Repr

/-- `EmscriptenModule.prototype.disposeInternal`: deletes the module
reference and disposes the message channel. -/
def moduleDisposeInternal (m : ModuleState) : ModuleState :=
  { m with googleSmartCardModule := none,
           messageChannel := dispose m.messageChannel }

/-- `goog.Disposable.prototype.dispose` for the bridge (modelled from the
spec as above): marks disposed and runs `disposeInternal`. -/
def moduleDispose (m : ModuleState) : ModuleState :=
  if m.disposed = true then m
  else moduleDisposeInternal { m with disposed := true }

/-- The environment the async load sequence of `EmscriptenModule.load_`
runs against: whether the support-code script loads, whether the factory
function is defined and succeeds, whether the `GoogleSmartCardModule` class
is defined, and the resulting module handle. -/
structure LoadEnvironment where
  supportCodeLoads : Bool
  factoryFunctionDefined : Bool
  factorySucceeds : Bool
  moduleClassDefined : Bool
  moduleHandle : Nat
deriving DecidableEq, Repr

/-- The ways `EmscriptenModule.load_` can fail. -/
inductive LoadFailure where
  | supportCodeLoadError
  | factoryFunctionNotDefined
  | factoryError
  | moduleClassNotDefined
deriving DecidableEq, Repr

/-- The step sequence of `EmscriptenModule.prototype.load_` up to obtaining
the module handle: load the support code, look up and run the factory
function, look up the `GoogleSmartCardModule` class. -/
def loadSteps (env : LoadEnvironment) : Except LoadFailure Nat :=
  if env.supportCodeLoads = false then .error .supportCodeLoadError
  else if env.factoryFunctionDefined = false then .error .factoryFunctionNotDefined
  else if env.factorySucceeds = false then .error .factoryError
  else if env.moduleClassDefined = false then .error .moduleClassNotDefined
  else .ok env.moduleHandle

/-- `EmscriptenModule.prototype.startLoading`: runs `load_()` and, on any
rejection (a failed step, or an error thrown while wiring up the channel),
the catch handler logs a warning and disposes the bridge.  On success the
module handle is stored and `onModuleCreated` wires up the channel. -/
def startLoading (react : Nat → Message → List Action) (fuel : Nat)
    (env : LoadEnvironment) (m : ModuleState) : ModuleState :=
  match loadSteps env with
  | .error _ => moduleDispose m
  | .ok handle =>
    let m1 := { m with googleSmartCardModule := some handle }
    match onModuleCreated react fuel m1.messageChannel handle with
    | (c, .aborted _) => moduleDispose { m1 with messageChannel := c }
    | (c, _) => { m1 with messageChannel := c }

/-- State of the `PcscLiteServerSocketsManager` (modelled from the header's
documentation and the spec, as the implementation file is not among the
sources), together with a `blocked` flag representing the single consumer
suspended inside `WaitAndPop` on the condition variable. -/
structure QueueState where
  queue : List Int
  shuttingDown : Bool
  blocked : Bool
deriving DecidableEq, Repr

/-- The queue before any operation: empty, not shut down, no waiter. -/
def initialQueueState : QueueState :=
  ⟨[], false, false⟩

/-- One event at the queue: a producer's `Push`, the consumer's
`WaitAndPop`, or `ShutDown`. -/
inductive QueueOp where
  | push (fd : Int)
  | pop
  | shutdown
deriving DecidableEq, Repr

/-- Modelled from the spec: one step of the queue.  `push` appends and, when
the consumer is blocked, wakes it — the woken waiter re-checks shutdown
first and otherwise pops the head.  `pop` (`WaitAndPop`) returns a null
optional immediately when shut down, pops the head when the queue is
non-empty, and otherwise blocks.  `shutdown` sets the monotone flag and
wakes the blocked waiter, which then observes the shutdown and returns a
null optional.  The second component lists the `WaitAndPop` results
resolved by the step. -/
def stepOp : QueueState → QueueOp → QueueState × List (Option Int)
  | s, .push fd =>
    if s.blocked then
      if s.shuttingDown then
        ({ s with queue := s.queue ++ [fd], blocked := false }, [none])
      else
        ({ s with queue := (s.queue ++ [fd]).tail, blocked := false },
          [(s.queue ++ [fd]).head?])
    else ({ s with queue := s.queue ++ [fd] }, [])
  | s, .pop =>
    if s.shuttingDown then (s, [none])
    else if s.queue = [] then ({ s with blocked := true }, [])
    else ({ s with queue := s.queue.tail }, [s.queue.head?])
  | s, .shutdown =>
    if s.blocked then ({ s with shuttingDown := true, blocked := false }, [none])
    else ({ s with shuttingDown := true }, [])

/-- Runs a trace of queue events, collecting the resolved `WaitAndPop`
results in order. -/
def runQueue : QueueState → List QueueOp → QueueState × List (Option Int)
  | s, [] => (s, [])
  | s, op :: rest =>
    let step := stepOp s op
    let next := runQueue step.1 rest
    (next.1, step.2 ++ next.2)

/-- The descriptors pushed by a trace, in order. -/
def pushedValues : List QueueOp → List Int
  | [] => []
  | .push fd :: rest => fd :: pushedValues rest
  | .pop :: rest => pushedValues rest
  | .shutdown :: rest => pushedValues rest

/-- One queue step never clears the shutdown flag and, once shut down,
resolves every `WaitAndPop` with a null optional. -/
theorem stepOp_shutdown_preserved (s : QueueState) (op : QueueOp)
    (h : s.shuttingDown = true) :
    (stepOp s op).1.shuttingDown = true ∧ (stepOp s op).2.reduceOption = [] := by
  cases op with
  | push fd => cases hb : s.blocked <;> simp [stepOp, h, hb, List.reduceOption]
  | pop => simp [stepOp, h, List.reduceOption]
  | shutdown => cases hb : s.blocked <;> simp [stepOp, h, hb, List.reduceOption]

/-- After shutdown, a whole trace resolves no `WaitAndPop` with a value. -/
theorem runQueue_shutdown (ops : List QueueOp) :
    ∀ s : QueueState, s.shuttingDown = true →
    (runQueue s ops).2.reduceOption = [] := by
  induction ops with
  | nil => intro s _; simp [runQueue, List.reduceOption]
  | cons op rest ih =>
    intro s h
    have hs := stepOp_shutdown_preserved s op h
    simp only [runQueue]
    rw [List.reduceOption_append, hs.2, ih _ hs.1]
    rfl

/-- `pushedValues` distributes over the head of a trace. -/
theorem pushedValues_cons (op : QueueOp) (rest : List QueueOp) :
    pushedValues (op :: rest) = pushedValues [op] ++ pushedValues rest := by
  cases op <;> simp [pushedValues]

/-- One queue step keeps the balance between resolved values, the remaining
queue, and the pushed descriptors. -/
theorem stepOp_queue_balance (s : QueueState) (op : QueueOp) :
    (stepOp s op).2.reduceOption ++ (stepOp s op).1.queue
      = s.queue ++ pushedValues [op] := by
  cases op with
  | push fd =>
    by_cases hb : s.blocked
    · by_cases hsd : s.shuttingDown
      · simp [stepOp, hb, hsd, pushedValues, List.reduceOption]
      · cases hq : s.queue ++ [fd] with
        | nil => simp at hq
        | cons h t =>
          simp only [stepOp, if_pos hb, if_neg hsd]
          rw [hq]
          simp only [List.head?, List.tail, List.reduceOption_cons_of_some,
            List.reduceOption_nil, pushedValues]
          simpa using hq.symm
    · simp [stepOp, hb, pushedValues, List.reduceOption]
  | pop =>
    by_cases hsd : s.shuttingDown
    · simp [stepOp, hsd, pushedValues, List.reduceOption]
    · by_cases hq : s.queue = []
      · simp [stepOp, hsd, hq, pushedValues, List.reduceOption]
      · cases hql : s.queue with
        | nil => exact absurd hql hq
        | cons h t =>
          simp only [stepOp, if_neg hsd, if_neg hq]
          rw [hql]
          simp only [List.head?, List.tail, List.reduceOption_cons_of_some,
            List.reduceOption_nil, pushedValues]
          simp
  | shutdown =>
    by_cases hb : s.blocked <;> simp [stepOp, hb, pushedValues, List.reduceOption]

/-- A whole trace keeps the balance: the values actually observed by the
consumer, followed by what is still queued, equal the starting queue
followed by everything pushed, in order. -/
theorem runQueue_fifo (ops : List QueueOp) :
    ∀ s : QueueState,
    (runQueue s ops).2.reduceOption ++ (runQueue s ops).1.queue
      = s.queue ++ pushedValues ops := by
  induction ops with
  | nil => intro s; simp [runQueue, pushedValues, List.reduceOption]
  | cons op rest ih =>
    intro s
    simp only [runQueue]
    rw [List.reduceOption_append, List.append_assoc, ih (stepOp s op).1,
      ← List.append_assoc, stepOp_queue_balance, pushedValues_cons op rest,
      List.append_assoc]

/-- C7: for every interleaving of `Push` and `WaitAndPop` with a single
consumer, the consumer observes the descriptors in exactly the order they
were pushed (the observed values are an order-preserving prefix of the
pushes, the rest still being queued); in particular after `Push(5);
Push(7);` the next two `WaitAndPop` calls return 5 then 7. -/
theorem waitAndPop_observes_push_order (ops : List QueueOp) :
    (runQueue initialQueueState ops).2.reduceOption
        ++ (runQueue initialQueueState ops).1.queue = pushedValues ops ∧
    (∃ rest, pushedValues ops
        = (runQueue initialQueueState ops).2.reduceOption ++ rest) ∧
    runQueue initialQueueState [.push 5, .push 7, .pop, .pop]
      = (⟨[], false, false⟩, [some 5, some 7]) := by
  have hbal := runQueue_fifo ops initialQueueState
  refine ⟨by simpa [initialQueueState] using hbal, ?_, by decide⟩
  exact ⟨(runQueue initialQueueState ops).1.queue,
    by simpa [initialQueueState] using hbal.symm⟩

/-- C4: after `ShutDown()`, every pending (blocked) and every future
`WaitAndPop()` call returns the empty optional, regardless of how many
descriptors remain queued; a woken waiter re-checks shutdown before
checking the queue, so a non-empty queue still yields empty. -/
theorem waitAndPop_empty_after_shutdown (s : QueueState)
    (ops : List QueueOp) (q : List Int) (b : Bool) (fd : Int)
    (hsd : s.shuttingDown = true) :
    (runQueue s ops).2.reduceOption = [] ∧
    stepOp ⟨q, true, b⟩ .pop = (⟨q, true, b⟩, [none]) ∧
    stepOp ⟨q, false, true⟩ .shutdown = (⟨q, true, false⟩, [none]) ∧
    stepOp ⟨q, true, true⟩ (.push fd) = (⟨q ++ [fd], true, false⟩, [none]) := by
  exact ⟨runQueue_shutdown ops s hsd, by simp [stepOp], by simp [stepOp],
    by simp [stepOp]⟩

/-- Witness for C4: a shut-down queue still holding descriptors 5 and 7
resolves a blocked and two subsequent `WaitAndPop` calls with the empty
optional. -/
theorem waitAndPop_empty_after_shutdown_witness :
    (runQueue ⟨[5, 7], true, false⟩ [.pop, .push 9, .pop]).2.reduceOption = [] ∧
    stepOp ⟨[5, 7], true, false⟩ .pop = (⟨[5, 7], true, false⟩, [none]) ∧
    stepOp ⟨[5, 7], false, true⟩ .shutdown = (⟨[5, 7], true, false⟩, [none]) ∧
    stepOp ⟨[5, 7], true, true⟩ (.push 9)
      = (⟨[5, 7] ++ [9], true, false⟩, [none]) :=
  waitAndPop_empty_after_shutdown ⟨[5, 7], true, false⟩ [.pop, .push 9, .pop]
    [5, 7] false 9 rfl

/-- On a disposed channel, any action list whose sends carry object
payloads runs without errors and without any effect. -/
theorem runActions_disposed (acts : List Action) :
    ∀ s : ChannelState, s.disposed = true → objectSendsOnly acts = true →
    runActions s acts = (s, none) := by
  induction acts with
  | nil => intro s _ _; rfl
  | cons a rest ih =>
    intro s hd ho
    cases a with
    | actSend serviceName payload =>
      simp only [objectSendsOnly, Bool.and_eq_true] at ho
      have hsend : send s serviceName payload = .ok s := by
        simp [send, ho.1, hd]
      simp [runActions, applyAction, hsend, ih s hd ho.2]
    | actDispose =>
      simp only [objectSendsOnly] at ho
      have hdisp : dispose s = s := by simp [dispose, hd]
      simp [runActions, applyAction, hdisp, ih s hd ho]

/-- C5: for every envelope (object payload), `send` on a disposed channel
is a silent no-op: no error, no delivery, and the state is unchanged. -/
theorem send_on_disposed_channel_is_noop (s : ChannelState)
    (serviceName : String) (payload : JsValue)
    (hobj : payload.isObject = true) (hdisp : s.disposed = true) :
    send s serviceName payload = .ok s := by
  simp [send, hobj, hdisp]

/-- Witness for C5: a disposed channel with a buffered message silently
drops a further send. -/
theorem send_on_disposed_channel_is_noop_witness :
    send ⟨[makeMessage "ping" (.object [])], none, true, [], []⟩ "pong"
        (.object [])
      = .ok ⟨[makeMessage "ping" (.object [])], none, true, [], []⟩ :=
  send_on_disposed_channel_is_noop
    ⟨[makeMessage "ping" (.object [])], none, true, [], []⟩ "pong"
    (.object []) rfl rfl

/-- C9: `send` runs its object-payload assertion before the disposed check,
so a non-object payload fails the assertion in every state — in particular
even on an already-disposed channel; the disposed silent drop applies only
to object payloads. -/
theorem send_nonobject_payload_asserts (s : ChannelState)
    (serviceName : String) (payload : JsValue)
    (hobj : payload.isObject = false) :
    send s serviceName payload = .error .assertionFailure := by
  simp [send, hobj]

/-- Witness for C9: a primitive payload fails the assertion on a disposed
channel. -/
theorem send_nonobject_payload_asserts_witness :
    send ⟨[], none, true, [], []⟩ "ping" (.primitive 3)
      = .error .assertionFailure :=
  send_nonobject_payload_asserts ⟨[], none, true, [], []⟩ "ping"
    (.primitive 3) rfl

/-- C8: with messages buffered and no target ever set, `dispose` discards
them: nothing is posted, no error is raised (`dispose` is total), and the
channel is thereafter permanently inert — any further well-formed activity
leaves it unchanged. -/
theorem dispose_discards_buffered_messages (s : ChannelState)
    (acts : List Action) (_hmod : s.googleSmartCardModule = none)
    (hdisp : s.disposed = false) (hacts : objectSendsOnly acts = true) :
    (dispose s).posted = s.posted ∧
    (dispose s).disposed = true ∧
    (dispose s).googleSmartCardModule = none ∧
    (dispose s).pendingOutgoingMessages = s.pendingOutgoingMessages ∧
    runActions (dispose s) acts = (dispose s, none) := by
  have hd : dispose s = disposeInternal { s with disposed := true } := by
    simp [dispose, hdisp]
  refine ⟨?_, ?_, ?_, ?_, ?_⟩
  · simp [hd, disposeInternal, baseDisposeInternal, clearModuleRef]
  · simp [hd, disposeInternal, baseDisposeInternal, clearModuleRef]
  · simp [hd, disposeInternal, baseDisposeInternal, clearModuleRef]
  · simp [hd, disposeInternal, baseDisposeInternal, clearModuleRef]
  · exact runActions_disposed acts (dispose s)
      (by simp [hd, disposeInternal, baseDisposeInternal, clearModuleRef]) hacts

/-- Witness for C8: two buffered messages, no target, disposal; a later
send changes nothing. -/
theorem dispose_discards_buffered_messages_witness :
    (dispose ⟨[makeMessage "ping" (.object []), makeMessage "pong" (.object [])],
        none, false, [], []⟩).posted = [] ∧
    (dispose ⟨[makeMessage "ping" (.object []), makeMessage "pong" (.object [])],
        none, false, [], []⟩).disposed = true ∧
    (dispose ⟨[makeMessage "ping" (.object []), makeMessage "pong" (.object [])],
        none, false, [], []⟩).googleSmartCardModule = none ∧
    (dispose ⟨[makeMessage "ping" (.object []), makeMessage "pong" (.object [])],
        none, false, [], []⟩).pendingOutgoingMessages
      = [makeMessage "ping" (.object []), makeMessage "pong" (.object [])] ∧
    runActions
        (dispose ⟨[makeMessage "ping" (.object []),
            makeMessage "pong" (.object [])], none, false, [], []⟩)
        [.actSend "late" (.object [])]
      = (dispose ⟨[makeMessage "ping" (.object []),
            makeMessage "pong" (.object [])], none, false, [], []⟩, none) :=
  dispose_discards_buffered_messages
    ⟨[makeMessage "ping" (.object []), makeMessage "pong" (.object [])],
      none, false, [], []⟩ [.actSend "late" (.object [])] rfl rfl rfl

/-- Routing a type through the subscriber list delivers to exactly the
registrations for that type, in registration order. -/
theorem deliver_eq_filter (subs : List Subscriber) (t : String) (d : JsValue) :
    deliver subs t d
      = (subs.filter fun sub => sub.serviceName == t).map
          fun sub => ⟨sub.id, d⟩ := by
  induction subs with
  | nil => rfl
  | cons sub rest ih =>
    by_cases h : sub.serviceName = t
    · have hb : (sub.serviceName == t) = true := by simp [h]
      simp [deliver, h, ih, List.filter, hb]
    · have hb : (sub.serviceName == t) = false := by simp [h]
      simp [deliver, h, ih, List.filter, hb]

/-- C2: a well-formed inbound raw message of type T is delivered to exactly
the subscribers registered for T, in registration order; a malformed
inbound raw message takes the fatal diagnostic path and is delivered to no
subscriber. -/
theorem inbound_routing_and_fatal_parse (s : ChannelState) (m : Message)
    (junk : Nat) :
    onMessageFromModule s (.wellFormed m)
      = .ok ((s.subscribers.filter fun sub => sub.serviceName == m.type).map
          fun sub => ⟨sub.id, m.data⟩) ∧
    onMessageFromModule s (.malformed junk) = .error .fatalLoggingFailure := by
  exact ⟨by simp [onMessageFromModule, parseTypedMessage, deliver_eq_filter],
    rfl⟩

/-- While the pending buffer is non-empty and the module is set, reentrant
object-payload sends only append to the buffer: nothing is posted and no
error occurs. -/
theorem runActions_buffering (t : Nat) (acts : List Action) :
    ∀ s : ChannelState, sendActionsOnly acts = true →
    s.disposed = false → s.googleSmartCardModule = some t →
    s.pendingOutgoingMessages ≠ [] →
    runActions s acts
      = ({ s with pendingOutgoingMessages :=
            s.pendingOutgoingMessages ++ actionMessages acts }, none) := by
  induction acts with
  | nil => intro s _ _ _ _; simp [runActions, actionMessages]
  | cons a rest ih =>
    intro s hacts hd hm hne
    cases a with
    | actDispose => simp [sendActionsOnly] at hacts
    | actSend serviceName payload =>
      simp only [sendActionsOnly, Bool.and_eq_true] at hacts
      have hcond : s.googleSmartCardModule = none ∨
          s.pendingOutgoingMessages ≠ [] := Or.inr hne
      have hsend : send s serviceName payload
          = .ok { s with pendingOutgoingMessages :=
              s.pendingOutgoingMessages ++ [makeMessage serviceName payload] } := by
        simp [send, hacts.1, hd, hcond]
      have ih' := ih { s with pendingOutgoingMessages :=
          s.pendingOutgoingMessages ++ [makeMessage serviceName payload] }
        hacts.2 (by simp [hd]) (by simp [hm]) (by simp)
      simp [runActions, applyAction, hsend, ih', actionMessages]

/-- Before the target is ready, object-payload sends only append to the
buffer, in order. -/
theorem runActions_module_none (acts : List Action) :
    ∀ s : ChannelState, sendActionsOnly acts = true →
    s.disposed = false → s.googleSmartCardModule = none →
    runActions s acts
      = ({ s with pendingOutgoingMessages :=
            s.pendingOutgoingMessages ++ actionMessages acts }, none) := by
  induction acts with
  | nil => intro s _ _ _; simp [runActions, actionMessages]
  | cons a rest ih =>
    intro s hacts hd hm
    cases a with
    | actDispose => simp [sendActionsOnly] at hacts
    | actSend serviceName payload =>
      simp only [sendActionsOnly, Bool.and_eq_true] at hacts
      have hcond : s.googleSmartCardModule = none ∨
          s.pendingOutgoingMessages ≠ [] := Or.inl hm
      have hsend : send s serviceName payload
          = .ok { s with pendingOutgoingMessages :=
              s.pendingOutgoingMessages ++ [makeMessage serviceName payload] } := by
        simp [send, hacts.1, hd, hcond]
      have ih' := ih { s with pendingOutgoingMessages :=
          s.pendingOutgoingMessages ++ [makeMessage serviceName payload] }
        hacts.2 (by simp [hd]) (by simp [hm])
      simp [runActions, applyAction, hsend, ih', actionMessages]

/-- After the drain: with the module set and the buffer empty, object
payload sends are posted immediately, in order. -/
theorem runActions_direct (t : Nat) (acts : List Action) :
    ∀ s : ChannelState, sendActionsOnly acts = true →
    s.disposed = false → s.googleSmartCardModule = some t →
    s.pendingOutgoingMessages = [] →
    runActions s acts
      = ({ s with posted := s.posted ++ actionMessages acts }, none) := by
  induction acts with
  | nil => intro s _ _ _ _; simp [runActions, actionMessages]
  | cons a rest ih =>
    intro s hacts hd hm hemp
    cases a with
    | actDispose => simp [sendActionsOnly] at hacts
    | actSend serviceName payload =>
      simp only [sendActionsOnly, Bool.and_eq_true] at hacts
      have hsend : send s serviceName payload
          = .ok { s with posted :=
              s.posted ++ [makeMessage serviceName payload] } := by
        simp [send, hacts.1, hd, hm, hemp, sendNow_]
      have ih' := ih { s with posted :=
          s.posted ++ [makeMessage serviceName payload] }
        hacts.2 (by simp [hd]) (by simp [hm]) (by simp [hemp])
      simp [runActions, applyAction, hsend, ih', actionMessages]

/-- Main drain-loop lemma: when every delivery side-effect only issues
object-payload sends and the loop runs to completion, the loop posts
exactly the final contents of the pending buffer from the starting index
onward — original entries first, in order, reentrant appends after — while
never removing a buffer entry, never clearing the module reference, and
leaving the subscribers untouched. -/
theorem drainLoop_flushes (react : Nat → Message → List Action) (t : Nat)
    (hreact : ∀ j m, sendActionsOnly (react j m) = true) :
    ∀ (fuel : Nat) (s : ChannelState) (i : Nat) (s' : ChannelState),
    s.disposed = false → s.googleSmartCardModule = some t →
    drainLoop react fuel s i = (s', .finished) →
    s'.disposed = false ∧ s'.googleSmartCardModule = some t ∧
    s'.subscribers = s.subscribers ∧
    (∃ ext, s'.pendingOutgoingMessages = s.pendingOutgoingMessages ++ ext) ∧
    s'.posted = s.posted ++ s'.pendingOutgoingMessages.drop i := by
  intro fuel
  induction fuel with
  | zero =>
    intro s i s' _ _ h
    simp [drainLoop] at h
  | succ fuel ih =>
    intro s i s' hd hm h
    rw [drainLoop] at h
    cases hi : s.pendingOutgoingMessages[i]? with
    | none =>
      rw [hi] at h
      simp only [Prod.mk.injEq] at h
      obtain ⟨rfl, -⟩ := h
      have hlen : s.pendingOutgoingMessages.length ≤ i :=
        List.getElem?_eq_none_iff.mp hi
      refine ⟨hd, hm, rfl, ⟨[], by simp⟩, ?_⟩
      simp [List.drop_eq_nil_of_le hlen]
    | some message =>
      rw [hi] at h
      dsimp only at h
      have hsn : sendNow_ s message
          = .ok { s with posted := s.posted ++ [message] } := by
        simp [sendNow_, hm]
      rw [hsn] at h
      have hne : s.pendingOutgoingMessages ≠ [] := by
        intro h0; rw [h0] at hi; simp at hi
      have hbuf := runActions_buffering t (react i message)
        { s with posted := s.posted ++ [message] } (hreact i message) hd hm hne
      dsimp only at h hbuf
      rw [hbuf] at h
      dsimp only at h
      obtain ⟨h1, h2, h3, ⟨ext2, h4⟩, h5⟩ :=
        ih _ (i + 1) s' (by simp [hd]) (by simp [hm]) h
      have hplen : i < s.pendingOutgoingMessages.length :=
        (List.getElem?_eq_some.mp hi).1
      have hpe : s'.pendingOutgoingMessages
          = s.pendingOutgoingMessages
              ++ (actionMessages (react i message) ++ ext2) := by
        simpa [List.append_assoc] using h4
      have hget : s'.pendingOutgoingMessages[i]? = some message := by
        rw [hpe, List.getElem?_append_left hplen, hi]
      have hlt : i < s'.pendingOutgoingMessages.length :=
        (List.getElem?_eq_some.mp hget).1
      have hdrop : s'.pendingOutgoingMessages.drop i
          = message :: s'.pendingOutgoingMessages.drop (i + 1) := by
        rw [List.drop_eq_getElem_cons hlt]
        have hgg := List.getElem?_eq_getElem hlt
        rw [hget] at hgg
        rw [← Option.some.injEq _ _ |>.mp hgg.symm]
      refine ⟨h1, h2, by simpa using h3,
        ⟨actionMessages (react i message) ++ ext2, hpe⟩, ?_⟩
      rw [h5, hdrop]
      simp

/-- The envelopes built by a list of send actions are the envelopes of the
underlying calls. -/
theorem actionMessages_sendActions (calls : List (String × JsValue)) :
    actionMessages (sendActions calls) = envelopesOf calls := by
  induction calls with
  | nil => rfl
  | cons c rest ih => simp [sendActions, actionMessages, envelopesOf] at ih ⊢; exact ih

/-- `onModuleCreated` that reports a finished drain is the reset of a
finished `drainLoop` run. -/
theorem onModuleCreated_finished (react : Nat → Message → List Action)
    (fuel : Nat) (s c : ChannelState) (target : Nat)
    (h : onModuleCreated react fuel s target = (c, .finished)) :
    ∃ s1, drainLoop react fuel
        { s with googleSmartCardModule := some target } 0 = (s1, .finished) ∧
      c = { s1 with pendingOutgoingMessages := [] } := by
  rw [onModuleCreated] at h
  cases hdl : drainLoop react fuel
      { s with googleSmartCardModule := some target } 0 with
  | mk s1 outcome =>
    rw [hdl] at h
    cases outcome with
    | finished =>
      simp only [Prod.mk.injEq] at h
      exact ⟨s1, rfl, h.1.symm⟩
    | fuelExhausted => simp at h
    | aborted e => simp at h

/-- C1: if N `send` calls are made before the target is ready, all N are
buffered (no delivery yet); once `onModuleCreated` runs, the target
observes those N envelopes first, in the original send order, then any
envelopes sent reentrantly by delivery side-effects during the drain, and
only then the envelopes of sends issued after the drain. -/
theorem buffered_sends_flushed_in_order_before_direct_sends
    (pre post : List (String × JsValue)) (react : Nat → Message → List Action)
    (fuel t : Nat) (sReady sFinal : ChannelState)
    (hpre : sendActionsOnly (sendActions pre) = true)
    (hpost : sendActionsOnly (sendActions post) = true)
    (hreact : ∀ j m, sendActionsOnly (react j m) = true)
    (hready : onModuleCreated react fuel
        { initialChannel with pendingOutgoingMessages := envelopesOf pre } t
      = (sReady, .finished))
    (hfinal : runActions sReady (sendActions post) = (sFinal, none)) :
    runActions initialChannel (sendActions pre)
      = ({ initialChannel with pendingOutgoingMessages := envelopesOf pre },
          none) ∧
    ∃ reentrant, sFinal.posted
      = envelopesOf pre ++ reentrant ++ envelopesOf post := by
  constructor
  · have hb := runActions_module_none (sendActions pre) initialChannel hpre
      rfl rfl
    simpa [initialChannel, actionMessages_sendActions] using hb
  · obtain ⟨s1, hdl, hc⟩ := onModuleCreated_finished react fuel
      { initialChannel with pendingOutgoingMessages := envelopesOf pre }
      sReady t hready
    obtain ⟨hd1, hm1, -, ⟨ext, hpend1⟩, hpost1⟩ :=
      drainLoop_flushes react t hreact fuel _ 0 s1 (by simp [initialChannel])
        (by simp [initialChannel]) hdl
    have hReadyFields : sReady.posted = envelopesOf pre ++ ext ∧
        sReady.disposed = false ∧ sReady.googleSmartCardModule = some t ∧
        sReady.pendingOutgoingMessages = [] := by
      rw [hc]
      refine ⟨?_, by simpa using hd1, by simpa using hm1, rfl⟩
      simpa [initialChannel, hpend1] using hpost1
    have hdirect := runActions_direct t (sendActions post) sReady hpost
      hReadyFields.2.1 hReadyFields.2.2.1 hReadyFields.2.2.2
    rw [hdirect] at hfinal
    simp only [Prod.mk.injEq] at hfinal
    refine ⟨ext, ?_⟩
    rw [← hfinal.1]
    simp [hReadyFields.1, actionMessages_sendActions, List.append_assoc]

/-- Witness for C1: two buffered sends, a reentrant send during the drain
of the first, and one post-ready send; the target sees ping, pong, the
reentrant extra, then the direct late envelope, in that order. -/
theorem buffered_sends_flushed_in_order_before_direct_sends_witness :
    runActions initialChannel
        (sendActions [("ping", .object []), ("pong", .object [])])
      = ({ initialChannel with
            pendingOutgoingMessages := envelopesOf
              [("ping", .object []), ("pong", .object [])] },
          none) ∧
    ∃ reentrant,
      (⟨[], some 0, false, [],
        [makeMessage "ping" (.object []), makeMessage "pong" (.object []),
          makeMessage "extra" (.object []),
          makeMessage "late" (.object [])]⟩ : ChannelState).posted
        = envelopesOf [("ping", .object []), ("pong", .object [])]
            ++ reentrant ++ envelopesOf [("late", .object [])] :=
  buffered_sends_flushed_in_order_before_direct_sends
    [("ping", .object []), ("pong", .object [])] [("late", .object [])]
    (fun i _ => if i = 0 then [.actSend "extra" (.object [])] else [])
    4 0
    ⟨[], some 0, false, [],
      [makeMessage "ping" (.object []), makeMessage "pong" (.object []),
        makeMessage "extra" (.object [])]⟩
    ⟨[], some 0, false, [],
      [makeMessage "ping" (.object []), makeMessage "pong" (.object []),
        makeMessage "extra" (.object []), makeMessage "late" (.object [])]⟩
    rfl rfl
    (by
      intro j m
      by_cases h : j = 0 <;> simp [h, sendActionsOnly, JsValue.isObject])
    (by decide) (by decide)

/-- C10: during the drain of `onModuleCreated`, delivered messages are not
removed from the pending buffer (the loop only ever appends, so the final
loop state extends the initial buffer), every buffer entry — original or
appended mid-drain — is posted in order, a send issued while the buffer is
non-empty appends instead of delivering directly, and once `onModuleCreated`
reports a finished drain the pending buffer is empty. -/
theorem drain_buffer_kept_until_loop_ends
    (react : Nat → Message → List Action) (fuel t : Nat)
    (s s' sIn c sMid : ChannelState) (serviceName : String)
    (payload : JsValue)
    (hreact : ∀ j m, sendActionsOnly (react j m) = true)
    (hd : s.disposed = false) (hm : s.googleSmartCardModule = some t)
    (hrun : drainLoop react fuel s 0 = (s', .finished))
    (hIn : onModuleCreated react fuel sIn t = (c, .finished))
    (hmidNe : sMid.pendingOutgoingMessages ≠ [])
    (hmidD : sMid.disposed = false)
    (hobj : payload.isObject = true) :
    (∃ ext, s'.pendingOutgoingMessages = s.pendingOutgoingMessages ++ ext) ∧
    s'.posted = s.posted ++ s'.pendingOutgoingMessages ∧
    c.pendingOutgoingMessages = [] ∧
    send sMid serviceName payload
      = .ok { sMid with
          pendingOutgoingMessages := sMid.pendingOutgoingMessages
            ++ [makeMessage serviceName payload] } := by
  obtain ⟨hd1, hm1, -, hext, hpost1⟩ :=
    drainLoop_flushes react t hreact fuel s 0 s' hd hm hrun
  refine ⟨hext, by simpa using hpost1, ?_, ?_⟩
  · obtain ⟨s1, -, hc⟩ := onModuleCreated_finished react fuel sIn c t hIn
    rw [hc]
  · have hcond : sMid.googleSmartCardModule = none ∨
        sMid.pendingOutgoingMessages ≠ [] := Or.inr hmidNe
    simp [send, hobj, hmidD, hcond]

/-- Witness for C10: a one-message buffer drains to an extended (here
unchanged) buffer that is fully posted, the finished `onModuleCreated`
resets the buffer, and a send against a non-empty buffer appends. -/
theorem drain_buffer_kept_until_loop_ends_witness :
    (∃ ext,
      (⟨[makeMessage "ping" (.object [])], some 0, false, [],
        [makeMessage "ping" (.object [])]⟩ : ChannelState).pendingOutgoingMessages
        = (⟨[makeMessage "ping" (.object [])], some 0, false, [],
            []⟩ : ChannelState).pendingOutgoingMessages ++ ext) ∧
    (⟨[makeMessage "ping" (.object [])], some 0, false, [],
      [makeMessage "ping" (.object [])]⟩ : ChannelState).posted
      = (⟨[makeMessage "ping" (.object [])], some 0, false, [],
          []⟩ : ChannelState).posted
        ++ (⟨[makeMessage "ping" (.object [])], some 0, false, [],
            [makeMessage "ping" (.object [])]⟩ : ChannelState).pendingOutgoingMessages ∧
    (⟨[], some 0, false, [],
      [makeMessage "ping" (.object [])]⟩ : ChannelState).pendingOutgoingMessages
      = [] ∧
    send ⟨[makeMessage "ping" (.object [])], some 0, false, [], []⟩ "extra"
        (.object [])
      = .ok { (⟨[makeMessage "ping" (.object [])], some 0, false, [],
            []⟩ : ChannelState) with
          pendingOutgoingMessages :=
            (⟨[makeMessage "ping" (.object [])], some 0, false, [],
              []⟩ : ChannelState).pendingOutgoingMessages
              ++ [makeMessage "extra" (.object [])] } :=
  drain_buffer_kept_until_loop_ends (fun _ _ => []) 2 0
    ⟨[makeMessage "ping" (.object [])], some 0, false, [], []⟩
    ⟨[makeMessage "ping" (.object [])], some 0, false, [],
      [makeMessage "ping" (.object [])]⟩
    ⟨[makeMessage "ping" (.object [])], none, false, [], []⟩
    ⟨[], some 0, false, [], [makeMessage "ping" (.object [])]⟩
    ⟨[makeMessage "ping" (.object [])], some 0, false, [], []⟩
    "extra" (.object []) (fun _ _ => rfl) rfl rfl (by decide) (by decide)
    (by decide) rfl rfl

/-- Dropping `i` elements of a `(k+1)`-element front, `i ≤ k`, starts with
the i-th element. -/
theorem take_drop_cons (msgs : List Message) (k i : Nat) (hik : i ≤ k)
    (hk : k + 1 ≤ msgs.length) (hilen : i < msgs.length) :
    (msgs.take (k + 1)).drop i
      = msgs.get ⟨i, hilen⟩ :: (msgs.take (k + 1)).drop (i + 1) := by
  have hlen : (msgs.take (k + 1)).length = k + 1 := by
    simp [List.length_take]; omega
  have hi : i < (msgs.take (k + 1)).length := by omega
  rw [List.drop_eq_getElem_cons hi]
  congr 1
  simp [List.getElem_take, List.get_eq_getElem]

/-- When the side-effect of the k-th delivery disposes the channel and at
least one more message is buffered, the drain loop posts exactly the first
k+1 buffer entries and then aborts with a `TypeError` while attempting the
next delivery on the deleted module reference; the remaining buffered
messages are never delivered and the buffer is never reset. -/
theorem drainLoop_reentrant_dispose (msgs : List Message) (k t : Nat) :
    ∀ (fuel i : Nat) (s : ChannelState),
    s.pendingOutgoingMessages = msgs →
    s.disposed = false → s.googleSmartCardModule = some t →
    i ≤ k → k + 1 < msgs.length → k + 2 ≤ fuel + i →
    drainLoop (fun j _ => if j = k then [Action.actDispose] else []) fuel s i
      = ({ s with
            googleSmartCardModule := none, disposed := true,
            subscribers := [],
            posted := s.posted ++ (msgs.take (k + 1)).drop i },
          .aborted .typeError) := by
  intro fuel
  induction fuel with
  | zero => intro i s _ _ _ hik hk hf; omega
  | succ fuel ih =>
    intro i s hp hd hm hik hk hf
    have hilen : i < msgs.length := by omega
    have hgi : s.pendingOutgoingMessages[i]? = some (msgs.get ⟨i, hilen⟩) := by
      rw [hp, List.get_eq_getElem]
      exact List.getElem?_eq_getElem hilen
    rw [drainLoop, hgi]
    dsimp only
    have hsn : sendNow_ s (msgs.get ⟨i, hilen⟩)
        = .ok { s with posted := s.posted ++ [msgs.get ⟨i, hilen⟩] } := by
      simp [sendNow_, hm]
    rw [hsn]
    dsimp only
    by_cases hikeq : i = k
    · subst hikeq
      rw [if_pos rfl]
      have hdisp : dispose { s with posted := s.posted ++ [msgs.get ⟨i, hilen⟩] }
          = { s with
              posted := s.posted ++ [msgs.get ⟨i, hilen⟩],
              disposed := true, googleSmartCardModule := none,
              subscribers := [] } := by
        simp [dispose, hd, disposeInternal, baseDisposeInternal, clearModuleRef]
      simp only [runActions, applyAction, hdisp]
      cases fuel with
      | zero => omega
      | succ fuel2 =>
        have hilen2 : i + 1 < msgs.length := by omega
        rw [drainLoop]
        dsimp only
        rw [hp, List.getElem?_eq_getElem hilen2]
        dsimp only [sendNow_]
        have hlen : (msgs.take (i + 1)).length = i + 1 := by
          simp [List.length_take]; omega
        have hdropk : (msgs.take (i + 1)).drop i = [msgs.get ⟨i, hilen⟩] := by
          rw [take_drop_cons msgs i i (le_refl i) (by omega) hilen,
            List.drop_eq_nil_of_le (by omega)]
        rw [hdropk]
    · rw [if_neg hikeq]
      simp only [runActions]
      have hih := ih (i + 1)
        { s with posted := s.posted ++ [msgs.get ⟨i, hilen⟩] }
        (by simpa using hp) (by simpa using hd) (by simpa using hm)
        (by omega) hk (by omega)
      rw [hih]
      have hdrop : (msgs.take (k + 1)).drop i
          = msgs.get ⟨i, hilen⟩ :: (msgs.take (k + 1)).drop (i + 1) :=
        take_drop_cons msgs k i (by omega) (by omega) hilen
      rw [hdrop]
      simp

/-- C3: `disposeInternal` clears the module (Target) reference before the
base-class disposal releases the subscribers; after `dispose` no outbound
call can reach the target — `sendNow_` throws a `TypeError` and any
well-formed reentrant activity leaves the state unchanged; and when a
delivery side-effect disposes the channel in the middle of the drain, only
the first k+1 buffered messages are ever delivered: the next loop
iteration aborts, so the remaining buffered messages never reach the
target. -/
theorem dispose_clears_target_and_halts_outbound
    (s sAny s0 : ChannelState) (message : Message) (acts : List Action)
    (msgs : List Message) (k fuel t : Nat)
    (hAnyD : sAny.disposed = false)
    (hacts : objectSendsOnly acts = true)
    (hk : k + 1 < msgs.length) (hfuel : k + 2 ≤ fuel)
    (h0p : s0.pendingOutgoingMessages = msgs) (h0d : s0.disposed = false)
    (h0m : s0.googleSmartCardModule = some t) :
    disposeInternal s = baseDisposeInternal (clearModuleRef s) ∧
    (clearModuleRef s).googleSmartCardModule = none ∧
    (dispose sAny).googleSmartCardModule = none ∧
    sendNow_ (dispose sAny) message = .error .typeError ∧
    runActions (dispose sAny) acts = (dispose sAny, none) ∧
    drainLoop (fun j _ => if j = k then [Action.actDispose] else []) fuel s0 0
      = ({ s0 with
            googleSmartCardModule := none, disposed := true,
            subscribers := [],
            posted := s0.posted ++ msgs.take (k + 1) },
          .aborted .typeError) := by
  have hda : (dispose sAny).googleSmartCardModule = none := by
    simp [dispose, hAnyD, disposeInternal, baseDisposeInternal, clearModuleRef]
  have hdd : (dispose sAny).disposed = true := by
    simp [dispose, hAnyD, disposeInternal, baseDisposeInternal, clearModuleRef]
  refine ⟨rfl, rfl, hda, by simp [sendNow_, hda],
    runActions_disposed acts (dispose sAny) hdd hacts, ?_⟩
  have hdl := drainLoop_reentrant_dispose msgs k t fuel 0 s0 h0p h0d h0m
    (by omega) hk (by omega)
  simpa using hdl

/-- Witness for C3: a two-message buffer whose first delivery disposes the
channel reentrantly; only the first message is posted, the loop aborts, and
the disposed channel rejects outbound calls. -/
theorem dispose_clears_target_and_halts_outbound_witness :
    disposeInternal initialChannel
      = baseDisposeInternal (clearModuleRef initialChannel) ∧
    (clearModuleRef initialChannel).googleSmartCardModule = none ∧
    (dispose ⟨[], some 3, false, [⟨"a", 1⟩], []⟩).googleSmartCardModule
      = none ∧
    sendNow_ (dispose ⟨[], some 3, false, [⟨"a", 1⟩], []⟩)
        (makeMessage "m" (.object []))
      = .error .typeError ∧
    runActions (dispose ⟨[], some 3, false, [⟨"a", 1⟩], []⟩)
        [.actSend "x" (.object []), .actDispose]
      = (dispose ⟨[], some 3, false, [⟨"a", 1⟩], []⟩, none) ∧
    drainLoop (fun j _ => if j = 0 then [Action.actDispose] else []) 2
        ⟨[makeMessage "ping" (.object []), makeMessage "pong" (.object [])],
          some 0, false, [], []⟩ 0
      = ({ (⟨[makeMessage "ping" (.object []),
              makeMessage "pong" (.object [])],
            some 0, false, [], []⟩ : ChannelState) with
            googleSmartCardModule := none, disposed := true,
            subscribers := [],
            posted := (⟨[makeMessage "ping" (.object []),
                makeMessage "pong" (.object [])],
              some 0, false, [], []⟩ : ChannelState).posted
              ++ [makeMessage "ping" (.object []),
                  makeMessage "pong" (.object [])].take (0 + 1) },
          .aborted .typeError) :=
  dispose_clears_target_and_halts_outbound initialChannel
    ⟨[], some 3, false, [⟨"a", 1⟩], []⟩
    ⟨[makeMessage "ping" (.object []), makeMessage "pong" (.object [])],
      some 0, false, [], []⟩
    (makeMessage "m" (.object []))
    [.actSend "x" (.object []), .actDispose]
    [makeMessage "ping" (.object []), makeMessage "pong" (.object [])]
    0 2 0 rfl rfl (by decide) (by decide) rfl rfl rfl

/-- C6: if any step of the module loader's load sequence fails (support
code, missing factory, failed factory, missing `GoogleSmartCardModule`
class), `startLoading`'s catch handler disposes the owning bridge, which
disposes the mailbox: the module references are cleared, nothing buffered
is ever posted, and the disposed mailbox is permanently inert; the single
`load_()` attempt is not retried. -/
theorem load_failure_disposes_bridge_and_mailbox
    (react : Nat → Message → List Action) (fuel : Nat)
    (env : LoadEnvironment) (m : ModuleState) (f : LoadFailure)
    (acts : List Action)
    (hf : loadSteps env = .error f) (hmd : m.disposed = false)
    (hcd : m.messageChannel.disposed = false)
    (hacts : objectSendsOnly acts = true) :
    startLoading react fuel env m = moduleDispose m ∧
    (moduleDispose m).disposed = true ∧
    (moduleDispose m).messageChannel.disposed = true ∧
    (moduleDispose m).googleSmartCardModule = none ∧
    (moduleDispose m).messageChannel.googleSmartCardModule = none ∧
    (moduleDispose m).messageChannel.posted = m.messageChannel.posted ∧
    (moduleDispose m).messageChannel.pendingOutgoingMessages
      = m.messageChannel.pendingOutgoingMessages ∧
    runActions (moduleDispose m).messageChannel acts
      = ((moduleDispose m).messageChannel, none) := by
  have hmdis : moduleDispose m
      = moduleDisposeInternal { m with disposed := true } := by
    simp [moduleDispose, hmd]
  have hcdis : dispose m.messageChannel
      = disposeInternal { m.messageChannel with disposed := true } := by
    simp [dispose, hcd]
  have hchd : (moduleDispose m).messageChannel.disposed = true := by
    simp [hmdis, moduleDisposeInternal, hcdis, disposeInternal,
      baseDisposeInternal, clearModuleRef]
  refine ⟨by simp [startLoading, hf], ?_, hchd, ?_, ?_, ?_, ?_,
    runActions_disposed acts (moduleDispose m).messageChannel hchd hacts⟩
  · simp [hmdis, moduleDisposeInternal]
  · simp [hmdis, moduleDisposeInternal]
  · simp [hmdis, moduleDisposeInternal, hcdis, disposeInternal,
      baseDisposeInternal, clearModuleRef]
  · simp [hmdis, moduleDisposeInternal, hcdis, disposeInternal,
      baseDisposeInternal, clearModuleRef]
  · simp [hmdis, moduleDisposeInternal, hcdis, disposeInternal,
      baseDisposeInternal, clearModuleRef]

/-- Witness for C6: a failing support-code load on a bridge holding one
buffered message disposes bridge and mailbox; the buffered message is never
posted and a later send is inert. -/
theorem load_failure_disposes_bridge_and_mailbox_witness :
    startLoading (fun _ _ => []) 1 ⟨false, true, true, true, 7⟩
        ⟨⟨[makeMessage "ping" (.object [])], none, false, [], []⟩, none, false⟩
      = moduleDispose
          ⟨⟨[makeMessage "ping" (.object [])], none, false, [], []⟩,
            none, false⟩ ∧
    (moduleDispose
        ⟨⟨[makeMessage "ping" (.object [])], none, false, [], []⟩,
          none, false⟩).disposed = true ∧
    (moduleDispose
        ⟨⟨[makeMessage "ping" (.object [])], none, false, [], []⟩,
          none, false⟩).messageChannel.disposed = true ∧
    (moduleDispose
        ⟨⟨[makeMessage "ping" (.object [])], none, false, [], []⟩,
          none, false⟩).googleSmartCardModule = none ∧
    (moduleDispose
        ⟨⟨[makeMessage "ping" (.object [])], none, false, [], []⟩,
          none, false⟩).messageChannel.googleSmartCardModule = none ∧
    (moduleDispose
        ⟨⟨[makeMessage "ping" (.object [])], none, false, [], []⟩,
          none, false⟩).messageChannel.posted
      = (⟨[makeMessage "ping" (.object [])], none, false, [],
          []⟩ : ChannelState).posted ∧
    (moduleDispose
        ⟨⟨[makeMessage "ping" (.object [])], none, false, [], []⟩,
          none, false⟩).messageChannel.pendingOutgoingMessages
      = (⟨[makeMessage "ping" (.object [])], none, false, [],
          []⟩ : ChannelState).pendingOutgoingMessages ∧
    runActions
        (moduleDispose
          ⟨⟨[makeMessage "ping" (.object [])], none, false, [], []⟩,
            none, false⟩).messageChannel [.actSend "late" (.object [])]
      = ((moduleDispose
          ⟨⟨[makeMessage "ping" (.object [])], none, false, [], []⟩,
            none, false⟩).messageChannel, none) :=
  load_failure_disposes_bridge_and_mailbox (fun _ _ => []) 1
    ⟨false, true, true, true, 7⟩
    ⟨⟨[makeMessage "ping" (.object [])], none, false, [], []⟩, none, false⟩
    .supportCodeLoadError [.actSend "late" (.object [])] rfl rfl rfl rfl

end SmartCard
